import Mathlib

/-
  Verification of the DOM comparison and scoring core of the
  react-assessment repository (src/utils/domCompare.ts, embedded in the
  source drop at src/src/App.tsx, and the run cycle of
  src/src/components/CodeRunner.tsx).

  Modelling conventions:
  * JavaScript numbers are modelled as exact rationals (ℚ).  All
    arithmetic appearing in the translated functions (weights, penalties,
    thresholds 0.5 / 0.8 / 0.9, ratios) is decimal arithmetic that is
    exact in both doubles and ℚ on the ranges involved.
  * JavaScript Math.round(x) is floor (x + 1/2) (round half towards +∞),
    Math.max / Math.min are max / min, Math.abs is abs.
  * DOM element trees are modelled by the inductive type Node below:
    an element node carries its tag, its attribute list and its child
    nodes; a text node carries its character data.  getAttribute returns
    Option String (none models the null returned for an absent
    attribute), textContent concatenates the text data of the subtree in
    document order, and the children / getElementChildren operations
    keep only element nodes, as in the DOM.
  * Strings are compared by value, as JavaScript does; String.length is
    the number of characters (the sources only ever compare ASCII data).
-/

namespace DomCompare

/-- Severity levels of a structural diff ('low' | 'medium' | 'high'). -/
inductive Severity where
| low
| medium
| high
deriving DecidableEq, Repr

/-- Model of the untyped values stored in the expected / actual fields of
a DiffEntry: the sources store strings, numbers (children counts) or null
(absent attributes) there. -/
inductive JsVal where
| str (s : String)
| num (q : ℚ)
| null
deriving DecidableEq, Repr

/-- DiffEntry of domCompare.ts.  Field names follow the source object
literal; the source fields called type and attribute are rendered dtype
and dattr because those words clash with Lean syntax. -/
inductive DiffEntry where
| mk (dtype : String) (severity : Severity) (expected actual : JsVal)
    (dattr : Option String) (index : Option Nat)
    (childDiffs : List DiffEntry) (similarity : Option ℚ)

def DiffEntry.dtype : DiffEntry → String
| .mk t _ _ _ _ _ _ _ => t

def DiffEntry.severity : DiffEntry → Severity
| .mk _ s _ _ _ _ _ _ => s

def DiffEntry.expected : DiffEntry → JsVal
| .mk _ _ e _ _ _ _ _ => e

def DiffEntry.actual : DiffEntry → JsVal
| .mk _ _ _ a _ _ _ _ => a

def DiffEntry.dattr : DiffEntry → Option String
| .mk _ _ _ _ a _ _ _ => a

def DiffEntry.index : DiffEntry → Option Nat
| .mk _ _ _ _ _ i _ _ => i

def DiffEntry.childDiffs : DiffEntry → List DiffEntry
| .mk _ _ _ _ _ _ c _ => c

def DiffEntry.similarity : DiffEntry → Option ℚ
| .mk _ _ _ _ _ _ _ s => s

/-- StructuralResult of domCompare.ts: { equal, diffs }. -/
structure StructuralResult where
  equal : Bool
  diffs : List DiffEntry

-- ------------ Tunable Weights (domCompare.ts lines 107-111) ------------

def STRUCTURE_WEIGHT : ℚ := 70

def VISUAL_WEIGHT : ℚ := 30

def STRUCTURE_TOLERANCE_CHILD_DIFF : ℕ := 1

def TEXT_SIM_THRESHOLD_STRICT : ℚ := 8/10

def TEXT_SIM_THRESHOLD_LENIENT : ℚ := 5/10

-- ------------ numeric helpers (domCompare.ts lines 486-492) ------------

/-- clamp01 of domCompare.ts: Math.max(0, Math.min(1, x)). -/
def clamp01 (x : ℚ) : ℚ := max 0 (min 1 x)

/-- clamp of domCompare.ts: Math.max(min, Math.min(max, x)). -/
def clamp (x lo hi : ℚ) : ℚ := max lo (min hi x)

/-- JavaScript Math.round: round half towards positive infinity.
Rat.floor is used because it computes; it agrees with Int.floor. -/
def jsRound (x : ℚ) : ℤ := Rat.floor (x + 1/2)

theorem ratFloor_eq_intFloor (q : ℚ) : Rat.floor q = Int.floor q :=
  le_antisymm (Int.le_floor.mpr (Rat.le_floor.mp le_rfl))
    (Rat.le_floor.mpr (Int.le_floor.mp le_rfl))

theorem jsRound_mono {x y : ℚ} (h : x ≤ y) : jsRound x ≤ jsRound y := by
  unfold jsRound
  rw [ratFloor_eq_intFloor, ratFloor_eq_intFloor]
  exact Int.floor_mono (by linarith)

theorem jsRound_eval {x : ℚ} {n : ℤ} (h1 : (n : ℚ) ≤ x + 1/2) (h2 : x + 1/2 < n + 1) :
    jsRound x = n := by
  rw [jsRound, ratFloor_eq_intFloor]
  exact Int.floor_eq_iff.mpr ⟨h1, h2⟩

-- ------------ score aggregator (domCompare.ts lines 303-332) ------------

/-- Structural part of calculateAssessmentScore (lines 310-321): the full
STRUCTURE_WEIGHT when the comparison found the trees equal, otherwise the
weight minus the severity-based penalties, floored at 0. -/
def structureScore (structuralResult : StructuralResult) : ℚ :=
  if structuralResult.equal then STRUCTURE_WEIGHT
  else
    let high := (structuralResult.diffs.filter (fun d => d.severity == Severity.high)).length
    let med := (structuralResult.diffs.filter (fun d => d.severity == Severity.medium)).length
    let low := (structuralResult.diffs.filter (fun d => d.severity == Severity.low)).length
    let penalties : ℚ := high * 20 + med * 10 + low * 5
    max 0 (STRUCTURE_WEIGHT - penalties)

/-- Accumulated (pre-clamp, pre-round) score of calculateAssessmentScore:
the value of the local variable score just before the final return
statement (lines 308-329). -/
def assessmentRawScore (structuralResult : StructuralResult) (visualSim : ℚ) : ℚ :=
  let score2 : ℚ := structureScore structuralResult + clamp01 visualSim * VISUAL_WEIGHT
  if structuralResult.equal = true ∧ (9 : ℚ)/10 < visualSim then min 100 (score2 + 5)
  else score2

/-- calculateAssessmentScore of domCompare.ts: Math.round(clamp(score, 0, 100))
applied to the accumulated score.  The result (an integer-valued number in
JavaScript) is returned as a rational. -/
def calculateAssessmentScore (structuralResult : StructuralResult) (visualSim : ℚ) : ℚ :=
  ((jsRound (clamp (assessmentRawScore structuralResult visualSim) 0 100) : ℤ) : ℚ)

/-- Score formula exactly as worded by claim C1 (and spec section 4.7),
written independently of the translated code: structural part 70 or
max(0, 70 − (high×20 + medium×10 + low×5)); plus clamp(v,0,1)×30; plus a
5-point bonus capped at 100 when equal and v > 0.9; finally rounded —
note: no final clamp to [0,100] is applied here. -/
def c1ClaimedScore (r : StructuralResult) (v : ℚ) : ℚ :=
  let high := (r.diffs.filter (fun d => d.severity == Severity.high)).length
  let med := (r.diffs.filter (fun d => d.severity == Severity.medium)).length
  let low := (r.diffs.filter (fun d => d.severity == Severity.low)).length
  let structural : ℚ := if r.equal then 70 else max 0 (70 - (high * 20 + med * 10 + low * 5))
  let total : ℚ := structural + clamp v 0 1 * 30
  let final : ℚ := if r.equal = true ∧ (9 : ℚ)/10 < v then min 100 (total + 5) else total
  ((jsRound final : ℤ) : ℚ)

/-- A structural result carrying exactly one high-severity diff (the
scenario-B tagName mismatch), used as concrete input for the aggregator
claims. -/
def oneHighDiffResult : StructuralResult :=
  ⟨false, [.mk "tagName" .high (.str "button") (.str "span") none none [] none]⟩

theorem clamp_eq_self {x lo hi : ℚ} (h1 : lo ≤ x) (h2 : x ≤ hi) :
    clamp x lo hi = x := by
  simp only [clamp, min_eq_right h2, max_eq_right h1]

theorem clamp01_nonneg (x : ℚ) : 0 ≤ clamp01 x := le_max_left 0 _

theorem clamp01_le_one (x : ℚ) : clamp01 x ≤ 1 :=
  max_le (by norm_num) (min_le_left 1 x)

theorem structureScore_nonneg (r : StructuralResult) : 0 ≤ structureScore r := by
  unfold structureScore
  split
  · norm_num [STRUCTURE_WEIGHT]
  · exact le_max_left 0 _

theorem structureScore_le (r : StructuralResult) : structureScore r ≤ 70 := by
  unfold structureScore
  split
  · norm_num [STRUCTURE_WEIGHT]
  · refine max_le (by norm_num) ?_
    have h : (0 : ℚ) ≤
        ((r.diffs.filter (fun d => d.severity == Severity.high)).length : ℚ) * 20 +
        ((r.diffs.filter (fun d => d.severity == Severity.medium)).length : ℚ) * 10 +
        ((r.diffs.filter (fun d => d.severity == Severity.low)).length : ℚ) * 5 := by
      positivity
    simp only [STRUCTURE_WEIGHT]
    linarith

theorem assessmentRawScore_nonneg (r : StructuralResult) (v : ℚ) :
    0 ≤ assessmentRawScore r v := by
  unfold assessmentRawScore
  have h1 := structureScore_nonneg r
  have h2 := clamp01_nonneg v
  have hs : (0 : ℚ) ≤ structureScore r + clamp01 v * VISUAL_WEIGHT := by
    simp only [VISUAL_WEIGHT]; nlinarith
  split
  · exact le_min (by norm_num) (by linarith)
  · exact hs

theorem assessmentRawScore_le_100 (r : StructuralResult) (v : ℚ) :
    assessmentRawScore r v ≤ 100 := by
  unfold assessmentRawScore
  have h1 := structureScore_le r
  have h2 := clamp01_le_one v
  have h3 := clamp01_nonneg v
  have hs : structureScore r + clamp01 v * VISUAL_WEIGHT ≤ 100 := by
    simp only [VISUAL_WEIGHT]; nlinarith
  split
  · exact min_le_left 100 _
  · exact hs

/-- C1: for every structural comparison result and every visual ratio v,
calculateAssessmentScore equals the claimed formula (70 for an equal
result, otherwise max(0, 70 − (high×20 + medium×10 + low×5)), plus
clamp(v,0,1)×30, plus a 5-point bonus capped at 100 when equal and
v > 0.9, rounded); and a result with exactly one high-severity diff
combined with visual ratio 0.6 yields score 68. -/
theorem C1_aggregator_formula :
    (∀ (r : StructuralResult) (v : ℚ),
      calculateAssessmentScore r v = c1ClaimedScore r v) ∧
    calculateAssessmentScore oneHighDiffResult (6/10) = 68 := by
  constructor
  · intro r v
    have hform : c1ClaimedScore r v = ((jsRound (assessmentRawScore r v) : ℤ) : ℚ) := rfl
    rw [calculateAssessmentScore, hform,
      clamp_eq_self (assessmentRawScore_nonneg r v) (assessmentRawScore_le_100 r v)]
  · have hbeq : ∀ a b : Severity, (a == b) = decide (a = b) := fun _ _ => rfl
    have hstruct : structureScore oneHighDiffResult = 50 := by
      simp [structureScore, oneHighDiffResult, DiffEntry.severity, STRUCTURE_WEIGHT,
        List.filter, hbeq]
      norm_num [max_def]
    have hrawe : oneHighDiffResult.equal = false := rfl
    have hraw : assessmentRawScore oneHighDiffResult (6/10) = 68 := by
      simp only [assessmentRawScore, hstruct, hrawe, clamp01, VISUAL_WEIGHT]
      norm_num [min_def, max_def]
    rw [calculateAssessmentScore, hraw, clamp_eq_self (by norm_num) (by norm_num),
      jsRound_eval (n := 68) (by norm_num) (by norm_num)]
    norm_num

/-- C4: for every structural comparison result and every visual ratio,
the aggregated score is an integer in the interval [0, 100]. -/
theorem C4_score_integer_bounds (r : StructuralResult) (v : ℚ) :
    ∃ n : ℤ, calculateAssessmentScore r v = (n : ℚ) ∧ 0 ≤ n ∧ n ≤ 100 := by
  refine ⟨jsRound (clamp (assessmentRawScore r v) 0 100), rfl, ?_, ?_⟩
  · have h : (0 : ℚ) ≤ clamp (assessmentRawScore r v) 0 100 := le_max_left 0 _
    have h0 : (0 : ℤ) = jsRound 0 :=
      (jsRound_eval (x := 0) (n := 0) (by norm_num) (by norm_num)).symm
    rw [h0]
    exact jsRound_mono h
  · have h : clamp (assessmentRawScore r v) 0 100 ≤ 100 :=
      max_le (by norm_num) (min_le_left 100 _)
    have h0 : (100 : ℤ) = jsRound 100 :=
      (jsRound_eval (x := 100) (n := 100) (by norm_num) (by norm_num)).symm
    rw [h0]
    exact jsRound_mono h

theorem assessmentRawScore_mono (r : StructuralResult) {v1 v2 : ℚ} (h : v1 ≤ v2) :
    assessmentRawScore r v1 ≤ assessmentRawScore r v2 := by
  unfold assessmentRawScore
  have hc : clamp01 v1 ≤ clamp01 v2 := by
    unfold clamp01
    exact max_le_max (le_refl 0) (min_le_min (le_refl 1) h)
  have hS : structureScore r + clamp01 v1 * VISUAL_WEIGHT ≤
      structureScore r + clamp01 v2 * VISUAL_WEIGHT := by
    simp only [VISUAL_WEIGHT]; nlinarith
  have hS1_100 : structureScore r + clamp01 v1 * VISUAL_WEIGHT ≤ 100 := by
    have := structureScore_le r
    have := clamp01_le_one v1
    have := clamp01_nonneg v1
    simp only [VISUAL_WEIGHT]; nlinarith
  by_cases hb1 : r.equal = true ∧ (9 : ℚ)/10 < v1
  · have hb2 : r.equal = true ∧ (9 : ℚ)/10 < v2 := ⟨hb1.1, lt_of_lt_of_le hb1.2 h⟩
    rw [if_pos hb1, if_pos hb2]
    exact min_le_min (le_refl 100) (by linarith)
  · rw [if_neg hb1]
    by_cases hb2 : r.equal = true ∧ (9 : ℚ)/10 < v2
    · rw [if_pos hb2]
      exact le_min (by linarith) (by linarith)
    · rw [if_neg hb2]
      exact hS

/-- C5: for a fixed structural comparison result, the aggregated score is
monotone in the visual ratio: v1 < v2 implies the score at v2 is at least
the score at v1, including across the 0.9 bonus threshold and the 100
cap. -/
theorem C5_score_monotone (r : StructuralResult) (v1 v2 : ℚ) (h : v1 < v2) :
    calculateAssessmentScore r v1 ≤ calculateAssessmentScore r v2 := by
  unfold calculateAssessmentScore
  have hraw := assessmentRawScore_mono r (le_of_lt h)
  have hclamp : clamp (assessmentRawScore r v1) 0 100 ≤
      clamp (assessmentRawScore r v2) 0 100 := by
    unfold clamp
    exact max_le_max (le_refl 0) (min_le_min (le_refl 100) hraw)
  have : jsRound (clamp (assessmentRawScore r v1) 0 100) ≤
      jsRound (clamp (assessmentRawScore r v2) 0 100) :=
    jsRound_mono hclamp
  exact_mod_cast this

/-- Witness for C5 at a concrete result and the ratios 0 < 1. -/
theorem C5_score_monotone_witness :
    (0 : ℚ) < 1 ∧
    calculateAssessmentScore oneHighDiffResult 0 ≤ calculateAssessmentScore oneHighDiffResult 1 :=
  ⟨by norm_num, C5_score_monotone oneHighDiffResult 0 1 (by norm_num)⟩

-- ------------ DOM tree model ------------

/-- A DOM node: an element (nodeType 1) with tag name, attributes and
child nodes, or a text node (nodeType 3) with its character data. -/
inductive Node where
| el (tag : String) (attrs : List (String × String)) (children : List Node)
| text (s : String)
deriving Repr

/-- isElementNode of domCompare.ts (nodeType === 1). -/
def isElementNode : Node → Bool
| .el _ _ _ => true
| .text _ => false

/-- Element.getAttribute: the value of the named attribute, or none for
the null returned when the attribute is absent. -/
def getAttribute : Node → String → Option String
| .el _ attrs _, name => (attrs.find? (fun p => p.1 == name)).map (fun p => p.2)
| .text _, _ => none

-- Node.textContent: concatenation of the text data of the subtree in
-- document order.
mutual
def textContent : Node → String
| .text s => s
| .el _ _ cs => textContentList cs
def textContentList : List Node → String
| [] => ""
| c :: cs => textContent c ++ textContentList cs
end

-- Deep DOM equality, modelling Node.isEqualNode (same tag, same
-- attributes, recursively equal children).
mutual
def nodeBeq : Node → Node → Bool
| .text s, .text t => s == t
| .el t1 a1 c1, .el t2 a2 c2 => t1 == t2 && a1 == a2 && nodeBeqList c1 c2
| _, _ => false
def nodeBeqList : List Node → List Node → Bool
| [], [] => true
| x :: xs, y :: ys => nodeBeq x y && nodeBeqList xs ys
| _, _ => false
end

mutual
theorem nodeBeq_refl : ∀ (n : Node), nodeBeq n n = true
| .text s => by simp [nodeBeq]
| .el t a cs => by
    have h := nodeBeqList_refl cs
    simp [nodeBeq, h]
theorem nodeBeqList_refl : ∀ (l : List Node), nodeBeqList l l = true
| [] => by simp [nodeBeqList]
| c :: cs => by
    simp only [nodeBeqList, Bool.and_eq_true]
    exact ⟨nodeBeq_refl c, nodeBeqList_refl cs⟩
end

mutual
theorem nodeBeq_eq : ∀ (a b : Node), nodeBeq a b = true → a = b
| .text s, .text t => by simp [nodeBeq]
| .el t1 a1 c1, .el t2 a2 c2 => by
    simp only [nodeBeq, Bool.and_eq_true, beq_iff_eq]
    rintro ⟨⟨h1, h2⟩, h3⟩
    have h4 := nodeBeqList_eq c1 c2 h3
    simp [h1, h2, h4]
| .text _, .el _ _ _ => by simp [nodeBeq]
| .el _ _ _, .text _ => by simp [nodeBeq]
theorem nodeBeqList_eq : ∀ (l1 l2 : List Node), nodeBeqList l1 l2 = true → l1 = l2
| [], [] => by simp
| x :: xs, y :: ys => by
    simp only [nodeBeqList, Bool.and_eq_true]
    rintro ⟨h1, h2⟩
    have h3 := nodeBeq_eq x y h1
    have h4 := nodeBeqList_eq xs ys h2
    simp [h3, h4]
| [], _ :: _ => by simp [nodeBeqList]
| _ :: _, [] => by simp [nodeBeqList]
end

-- ------------ text normalisation and similarity (lines 340-396) ------------

/-- The whitespace class used by the regular expressions of
normalizeText; the sources only ever meet ASCII whitespace. -/
def jsWhitespace (c : Char) : Bool :=
  c == ' ' || c == '\t' || c == '\n' || c == '\r'

/-- replace(/s+/g, single space): collapse every whitespace run to one
space; the boolean records whether the previous character was part of a
whitespace run. -/
def collapseWs : List Char → Bool → List Char
| [], _ => []
| c :: rest, inRun =>
  if jsWhitespace c then
    if inRun then collapseWs rest true
    else ' ' :: collapseWs rest true
  else c :: collapseWs rest false

/-- String.prototype.trim: drop leading and trailing whitespace. -/
def jsTrim (l : List Char) : List Char :=
  ((l.dropWhile jsWhitespace).reverse.dropWhile jsWhitespace).reverse

/-- normalizeText of domCompare.ts: collapse whitespace to single
spaces, trim, lowercase. -/
def normalizeText (text : String) : String :=
  String.mk ((jsTrim (collapseWs text.toList false)).map Char.toLower)

/-- Helper of extractNumbers: scan for maximal digit runs, accumulating
the current run's numeric value. -/
def extractNumbersAux : List Char → Option ℕ → List ℕ
| [], none => []
| [], some n => [n]
| c :: rest, acc =>
  if c.isDigit then
    extractNumbersAux rest (some ((acc.getD 0) * 10 + (c.toNat - '0'.toNat)))
  else
    match acc with
    | none => extractNumbersAux rest none
    | some n => n :: extractNumbersAux rest none

/-- extractNumbers of domCompare.ts: the numeric values of all maximal
digit runs (text.match of one-or-more digits, mapped through Number). -/
def extractNumbers (text : String) : List ℕ :=
  extractNumbersAux text.toList none

/-- Helper of abstractDigits: replace each maximal digit run by NUM. -/
def abstractDigitsAux : List Char → Bool → List Char
| [], _ => []
| c :: rest, inRun =>
  if c.isDigit then
    if inRun then abstractDigitsAux rest true
    else 'N' :: 'U' :: 'M' :: abstractDigitsAux rest true
  else c :: abstractDigitsAux rest false

/-- The digit abstraction used by calculateTextSimilarity:
replace(one-or-more digits, global, by the token NUM). -/
def abstractDigits (s : String) : String :=
  String.mk (abstractDigitsAux s.toList false)

/-- levenshteinDistance of domCompare.ts.  The source fills the standard
dynamic-programming table dp with dp(i,0)=i, dp(0,j)=j and
dp(i,j) = dp(i-1,j-1) on equal characters, else 1 + min of replace,
insert, delete; this is that recurrence written recursively over the
two character lists. -/
def levenshteinAux : List Char → List Char → ℕ
| [], ys => ys.length
| xs, [] => xs.length
| x :: xs, y :: ys =>
  if x = y then levenshteinAux xs ys
  else 1 + min (levenshteinAux xs ys)
          (min (levenshteinAux (x :: xs) ys) (levenshteinAux xs (y :: ys)))
termination_by xs ys => xs.length + ys.length
decreasing_by all_goals simp_arith

def levenshteinDistance (str1 str2 : String) : ℕ :=
  levenshteinAux str1.toList str2.toList

/-- calculateTextSimilarity of domCompare.ts (lines 347-367). -/
def calculateTextSimilarity (a b : String) : ℚ :=
  if a = b then 1
  else if a = "" ∨ b = "" then 0
  else
    let numsA := extractNumbers a
    let numsB := extractNumbers b
    if 0 < numsA.length ∧ 0 < numsB.length ∧ abstractDigits a = abstractDigits b then 9/10
    else
      let longer := if b.length < a.length then a else b
      let shorter := if b.length < a.length then b else a
      if longer.length = 0 then 1
      else clamp01 (((longer.length : ℚ) - levenshteinDistance longer shorter) / longer.length)

-- ------------ structural comparator (lines 114-208) ------------

/-- JavaScript truthiness of a getAttribute result: null and the empty
string are falsy, every other string is truthy. -/
def jsTruthy : Option String → Bool
| none => false
| some s => !(s == "")

/-- Conversion of a getAttribute result to the untyped value stored in a
DiffEntry. -/
def optToJsVal : Option String → JsVal
| none => .null
| some s => .str s

/-- The fixed attribute set compared by structuralEqual (line 161). -/
def importantAttrs : List String :=
  ["id", "class", "type", "href", "src", "role", "aria-label"]

/-- getElementChildren of domCompare.ts: keep only element nodes of a
child-node list. -/
def getElementChildren (l : List Node) : List Node :=
  l.filter isElementNode

/-- The first element node of a child-node list together with the
remaining nodes after it (none when no element node is left). -/
def firstElement : List Node → Option (Node × List Node)
| [] => none
| .text _ :: xs => firstElement xs
| .el t a cs :: xs => some (.el t a cs, xs)

/-- JavaScript String.prototype.toLowerCase (on the ASCII data the
sources compare). -/
def jsToLower (s : String) : String :=
  String.mk (s.toList.map Char.toLower)

/-- Equality verdict of structuralEqual (lines 203-205): no
high-severity diffs and at most two diffs in total. -/
def verdict (diffs : List DiffEntry) : Bool :=
  decide ((diffs.filter (fun d => d.severity == Severity.high)).length = 0 ∧
    diffs.length ≤ 2)

/-- Tag-name comparison of structuralEqual (lines 131-141). -/
def tagNameDiffs (expectedTag actualTag : String) : List DiffEntry :=
  if expectedTag ≠ actualTag then
    [.mk "tagName" .high (.str expectedTag) (.str actualTag) none none [] none]
  else []

/-- Text-content comparison of structuralEqual (lines 143-158); the
source's local textSimilarity is written out at each use. -/
def textContentDiffs (expectedText actualText : String) : List DiffEntry :=
  if expectedText ≠ "" ∧ actualText ≠ "" ∧ expectedText ≠ actualText then
    if calculateTextSimilarity expectedText actualText < TEXT_SIM_THRESHOLD_STRICT then
      [.mk "textContent"
        (if calculateTextSimilarity expectedText actualText < TEXT_SIM_THRESHOLD_LENIENT
          then .high else .low)
        (.str expectedText) (.str actualText) none none []
        (some (calculateTextSimilarity expectedText actualText))]
    else []
  else []

/-- Key-attribute comparison of structuralEqual (lines 160-174): one
diff per compared attribute whose values differ with at least one truthy
side, severity high for id and medium otherwise. -/
def attributeDiffs (expected actual : Node) : List DiffEntry :=
  importantAttrs.filterMap (fun attr =>
    if getAttribute expected attr ≠ getAttribute actual attr ∧
        (jsTruthy (getAttribute expected attr) = true ∨
         jsTruthy (getAttribute actual attr) = true) then
      some (.mk "attribute" (if attr = "id" then .high else .medium)
        (optToJsVal (getAttribute expected attr)) (optToJsVal (getAttribute actual attr))
        (some attr) none [] none)
    else none)

/-- Children-count comparison of structuralEqual (lines 176-187). -/
def childrenCountDiffs (expectedCount actualCount : ℕ) : List DiffEntry :=
  if STRUCTURE_TOLERANCE_CHILD_DIFF < ((expectedCount : ℤ) - (actualCount : ℤ)).natAbs then
    [.mk "childrenCount" .medium (.num expectedCount) (.num actualCount) none none [] none]
  else []

/-- Recursive child comparison of structuralEqual (lines 189-201): a
childStructure diff for every compared child pair that is not equal. -/
def childStructureDiffs (childResults : List StructuralResult) : List DiffEntry :=
  childResults.enum.filterMap (fun p =>
    if p.2.equal = false then
      some (.mk "childStructure" .medium .null .null none (some p.1) p.2.diffs none)
    else none)

-- structuralEqual of domCompare.ts.  The guard for non-element nodes
-- (line 118) is the text-node patterns; the isEqualNode fast path (lines
-- 122-129) is nodeBeq; the remaining diff sections are the helper
-- functions above, concatenated in source order.  seChildren walks the two
-- child lists pairing successive element children, exactly the source loop
-- over the two getElementChildren arrays up to the shorter length.
mutual
def structuralEqual : Node → Node → StructuralResult
| .text _, _ => ⟨true, []⟩
| _, .text _ => ⟨true, []⟩
| .el etag eattrs ecs, .el atag aattrs acs =>
  if nodeBeq (.el etag eattrs ecs) (.el atag aattrs acs) then ⟨true, []⟩
  else
    let diffs :=
      tagNameDiffs (jsToLower etag) (jsToLower atag)
      ++ textContentDiffs (normalizeText (textContent (.el etag eattrs ecs)))
           (normalizeText (textContent (.el atag aattrs acs)))
      ++ attributeDiffs (.el etag eattrs ecs) (.el atag aattrs acs)
      ++ childrenCountDiffs (getElementChildren ecs).length (getElementChildren acs).length
      ++ childStructureDiffs (seChildren ecs acs)
    ⟨verdict diffs, diffs⟩
def seChildren : List Node → List Node → List StructuralResult
| [], _ => []
| .text _ :: xs, ys => seChildren xs ys
| .el t a cs :: xs, ys =>
  match firstElement ys with
  | none => []
  | some (y, ys2) => structuralEqual (.el t a cs) y :: seChildren xs ys2
end

theorem structuralEqual_text_left (s : String) (a : Node) :
    structuralEqual (.text s) a = ⟨true, []⟩ := by
  cases a <;> rfl

theorem structuralEqual_text_right (e : Node) (s : String) :
    structuralEqual e (.text s) = ⟨true, []⟩ := by
  cases e <;> rfl

/-- Unfolding equation of structuralEqual on two element nodes. -/
theorem structuralEqual_el (etag : String) (eattrs : List (String × String))
    (ecs : List Node) (atag : String) (aattrs : List (String × String))
    (acs : List Node) :
    structuralEqual (.el etag eattrs ecs) (.el atag aattrs acs) =
      if nodeBeq (.el etag eattrs ecs) (.el atag aattrs acs) then ⟨true, []⟩
      else
        let diffs :=
          tagNameDiffs (jsToLower etag) (jsToLower atag)
          ++ textContentDiffs (normalizeText (textContent (.el etag eattrs ecs)))
               (normalizeText (textContent (.el atag aattrs acs)))
          ++ attributeDiffs (.el etag eattrs ecs) (.el atag aattrs acs)
          ++ childrenCountDiffs (getElementChildren ecs).length (getElementChildren acs).length
          ++ childStructureDiffs (seChildren ecs acs)
        ⟨verdict diffs, diffs⟩ := rfl

theorem seChildren_nil (ys : List Node) : seChildren [] ys = [] := rfl

theorem seChildren_text (s : String) (xs ys : List Node) :
    seChildren (.text s :: xs) ys = seChildren xs ys := rfl

theorem seChildren_el (t : String) (a : List (String × String)) (cs : List Node)
    (xs ys : List Node) :
    seChildren (.el t a cs :: xs) ys =
      match firstElement ys with
      | none => []
      | some (y, ys2) => structuralEqual (.el t a cs) y :: seChildren xs ys2 := rfl

theorem firstElement_none {l : List Node} (h : firstElement l = none) :
    getElementChildren l = [] := by
  induction l with
  | nil => rfl
  | cons z zs ihz =>
    cases z with
    | text s =>
      rw [firstElement] at h
      simp only [getElementChildren, List.filter_cons, isElementNode]
      exact ihz h
    | el t2 a2 c2 => simp [firstElement] at h

theorem firstElement_some {l : List Node} {y : Node} {ys : List Node}
    (h : firstElement l = some (y, ys)) :
    getElementChildren l = y :: getElementChildren ys := by
  induction l with
  | nil => simp [firstElement] at h
  | cons z zs ihz =>
    cases z with
    | text s =>
      rw [firstElement] at h
      simp only [getElementChildren, List.filter_cons, isElementNode]
      exact ihz h
    | el t2 a2 c2 =>
      rw [firstElement] at h
      obtain ⟨h1, h2⟩ := Prod.mk.injEq .. ▸ Option.some.injEq .. ▸ h
      subst h1 h2
      simp [getElementChildren, isElementNode]

/-- Sanity check: seChildren pairs exactly the element children of the
two sides, in order, up to the shorter list — the source loop over
getElementChildren(expected) and getElementChildren(actual). -/
theorem seChildren_eq_zip :
    ∀ (ecs acs : List Node),
      seChildren ecs acs =
        ((getElementChildren ecs).zip (getElementChildren acs)).map
          (fun p => structuralEqual p.1 p.2) := by
  intro ecs
  induction ecs with
  | nil => intro acs; simp [seChildren_nil, getElementChildren]
  | cons x xs ih =>
    intro acs
    cases x with
    | text s =>
      rw [seChildren_text]
      simp only [getElementChildren, List.filter_cons, isElementNode]
      exact ih acs
    | el t a cs =>
      rw [seChildren_el]
      cases hfec : firstElement acs with
      | none =>
        rw [firstElement_none hfec]
        simp
      | some p =>
        obtain ⟨y, ys2⟩ := p
        rw [firstElement_some hfec]
        simp only [getElementChildren, List.filter_cons, isElementNode, cond_true,
          List.zip_cons_cons, List.map_cons]
        rw [ih ys2]
        rfl

theorem verdict_nil : verdict [] = true := by
  simp [verdict]

theorem verdict_iff (diffs : List DiffEntry) :
    verdict diffs = true ↔
      ((∀ d ∈ diffs, d.severity ≠ Severity.high) ∧ diffs.length ≤ 2) := by
  simp only [verdict, decide_eq_true_eq, List.length_eq_zero, List.filter_eq_nil_iff,
    beq_iff_eq]

/-- C2: for every pair of trees, the comparator's equality verdict is
exactly: no returned diff has severity high and the total diff count is
at most 2; consequently any input producing at least one high-severity
diff yields equal = false regardless of the diff count. -/
theorem C2_equality_verdict :
    (∀ e a : Node, (structuralEqual e a).equal = true ↔
      ((∀ d ∈ (structuralEqual e a).diffs, d.severity ≠ Severity.high) ∧
        (structuralEqual e a).diffs.length ≤ 2)) ∧
    (∀ e a : Node, (∃ d ∈ (structuralEqual e a).diffs, d.severity = Severity.high) →
      (structuralEqual e a).equal = false) := by
  have hmain : ∀ e a : Node, (structuralEqual e a).equal = true ↔
      ((∀ d ∈ (structuralEqual e a).diffs, d.severity ≠ Severity.high) ∧
        (structuralEqual e a).diffs.length ≤ 2) := by
    intro e a
    cases e with
    | text s => rw [structuralEqual_text_left]; simp
    | el etag eattrs ecs =>
      cases a with
      | text s => rw [structuralEqual_text_right]; simp
      | el atag aattrs acs =>
        rw [structuralEqual_el]
        split
        · simp
        · exact verdict_iff _
  refine ⟨hmain, ?_⟩
  intro e a hd
  obtain ⟨d, hdm, hds⟩ := hd
  by_contra hne
  have heq : (structuralEqual e a).equal = true := by
    cases h : (structuralEqual e a).equal
    · exact absurd h hne
    · rfl
  exact ((hmain e a).mp heq).1 d hdm hds

/-- C6: comparing any tree against itself returns equal = true with an
empty diff list (the isEqualNode fast path always fires on an identical
tree). -/
theorem C6_reflexivity (T : Node) : structuralEqual T T = ⟨true, []⟩ := by
  cases T with
  | text s => rfl
  | el tag attrs cs =>
    rw [structuralEqual_el]
    simp only [nodeBeq_refl, if_true]

-- ------------ attribute diff lemmas (for C7 / C10) ------------

theorem mem_tagNameDiffs {d : DiffEntry} {x y : String} (h : d ∈ tagNameDiffs x y) :
    d.dtype = "tagName" := by
  unfold tagNameDiffs at h
  split at h
  · rw [List.mem_singleton.mp h]; rfl
  · simp at h

theorem mem_textContentDiffs {d : DiffEntry} {x y : String} (h : d ∈ textContentDiffs x y) :
    d.dtype = "textContent" := by
  unfold textContentDiffs at h
  split at h
  · split at h
    · rw [List.mem_singleton.mp h]; rfl
    · simp at h
  · simp at h

theorem mem_childrenCountDiffs {d : DiffEntry} {m n : ℕ} (h : d ∈ childrenCountDiffs m n) :
    d.dtype = "childrenCount" := by
  unfold childrenCountDiffs at h
  split at h
  · rw [List.mem_singleton.mp h]; rfl
  · simp at h

theorem mem_childStructureDiffs {d : DiffEntry} {rs : List StructuralResult}
    (h : d ∈ childStructureDiffs rs) : d.dtype = "childStructure" := by
  unfold childStructureDiffs at h
  obtain ⟨p, _, hf⟩ := List.mem_filterMap.mp h
  split at hf
  · exact (Option.some.inj hf) ▸ rfl
  · simp at hf

theorem mem_attributeDiffs {d : DiffEntry} {e a : Node} :
    d ∈ attributeDiffs e a ↔
      ∃ attr, attr ∈ importantAttrs ∧
        getAttribute e attr ≠ getAttribute a attr ∧
        (jsTruthy (getAttribute e attr) = true ∨ jsTruthy (getAttribute a attr) = true) ∧
        d = .mk "attribute" (if attr = "id" then .high else .medium)
          (optToJsVal (getAttribute e attr)) (optToJsVal (getAttribute a attr))
          (some attr) none [] none := by
  unfold attributeDiffs
  rw [List.mem_filterMap]
  constructor
  · rintro ⟨attr, hmem, hf⟩
    split at hf
    · rename_i hcond
      exact ⟨attr, hmem, hcond.1, hcond.2, (Option.some.injEq .. ▸ hf).symm⟩
    · simp at hf
  · rintro ⟨attr, hmem, h1, h2, h3⟩
    exact ⟨attr, hmem, by rw [if_pos ⟨h1, h2⟩, h3]⟩

/-- Decomposition of the diff list of structuralEqual on two element
nodes that are not isEqualNode-equal. -/
theorem structuralEqual_diffs_cases {etag atag : String}
    {eattrs aattrs : List (String × String)} {ecs acs : List Node} {d : DiffEntry}
    (hne : nodeBeq (.el etag eattrs ecs) (.el atag aattrs acs) = false)
    (h : d ∈ (structuralEqual (.el etag eattrs ecs) (.el atag aattrs acs)).diffs) :
    d ∈ tagNameDiffs (jsToLower etag) (jsToLower atag) ∨
    d ∈ textContentDiffs (normalizeText (textContent (.el etag eattrs ecs)))
        (normalizeText (textContent (.el atag aattrs acs))) ∨
    d ∈ attributeDiffs (.el etag eattrs ecs) (.el atag aattrs acs) ∨
    d ∈ childrenCountDiffs (getElementChildren ecs).length (getElementChildren acs).length ∨
    d ∈ childStructureDiffs (seChildren ecs acs) := by
  rw [structuralEqual_el, if_neg (by rw [hne]; exact fun hc => Bool.noConfusion hc)] at h
  simp only [List.mem_append] at h
  tauto

/-- C7 counterexample input: the expected element carries class with the
empty-string value, the actual element lacks the attribute entirely. -/
def c7Expected : Node := .el "div" [("class", "")] []

/-- C7 counterexample input: element without any attribute. -/
def c7Actual : Node := .el "div" [] []

/-- Counterexample to C7 as stated: for the class attribute the two
sides' values differ and the expected side defines the attribute (with
the empty string), yet the comparator emits no diff at all — the source
condition (expectedVal || actualVal) also requires a non-empty value on
one side. -/
theorem C7_counterexample :
    getAttribute c7Expected "class" = some "" ∧
    getAttribute c7Actual "class" = none ∧
    getAttribute c7Expected "class" ≠ getAttribute c7Actual "class" ∧
    (structuralEqual c7Expected c7Actual).diffs.length = 0 := by
  refine ⟨rfl, rfl, by decide, ?_⟩
  decide

/-- C7 amended: for every pair of element nodes and every attribute in
the compared set, whenever the two sides' values differ and at least one
side's value is truthy (a non-empty string — not merely defined), the
comparator emits an attribute diff for that attribute with severity high
for id and medium otherwise; and every attribute diff the comparator
emits names an attribute of the compared set. -/
theorem C7_attribute_diffs_amended :
    (∀ (e a : Node) (attr : String),
      isElementNode e = true → isElementNode a = true → attr ∈ importantAttrs →
      getAttribute e attr ≠ getAttribute a attr →
      (jsTruthy (getAttribute e attr) = true ∨ jsTruthy (getAttribute a attr) = true) →
      ∃ d ∈ (structuralEqual e a).diffs,
        d.dtype = "attribute" ∧ d.dattr = some attr ∧
        d.severity = (if attr = "id" then Severity.high else Severity.medium)) ∧
    (∀ (e a : Node), ∀ d ∈ (structuralEqual e a).diffs, d.dtype = "attribute" →
      ∃ attr ∈ importantAttrs, d.dattr = some attr) := by
  constructor
  · intro e a attr he ha hmem hne htruthy
    cases e with
    | text s => simp [isElementNode] at he
    | el etag eattrs ecs =>
      cases a with
      | text s => simp [isElementNode] at ha
      | el atag aattrs acs =>
        cases hbeq : nodeBeq (.el etag eattrs ecs) (.el atag aattrs acs) with
        | true =>
          have heq := nodeBeq_eq _ _ hbeq
          exact absurd (congrArg (fun n => getAttribute n attr) heq) hne
        | false =>
          rw [structuralEqual_el,
            if_neg (by rw [hbeq]; exact fun hc => Bool.noConfusion hc)]
          refine ⟨.mk "attribute" (if attr = "id" then .high else .medium)
            (optToJsVal (getAttribute (.el etag eattrs ecs) attr))
            (optToJsVal (getAttribute (.el atag aattrs acs) attr))
            (some attr) none [] none, ?_, rfl, rfl, rfl⟩
          simp only [List.mem_append]
          refine Or.inl (Or.inl (Or.inr ?_))
          exact mem_attributeDiffs.mpr ⟨attr, hmem, hne, htruthy, rfl⟩
  · intro e a d hd hattr
    cases e with
    | text s => rw [structuralEqual_text_left] at hd; simp at hd
    | el etag eattrs ecs =>
      cases a with
      | text s => rw [structuralEqual_text_right] at hd; simp at hd
      | el atag aattrs acs =>
        cases hbeq : nodeBeq (.el etag eattrs ecs) (.el atag aattrs acs) with
        | true =>
          rw [structuralEqual_el, if_pos hbeq] at hd
          simp at hd
        | false =>
          rcases structuralEqual_diffs_cases hbeq hd with h | h | h | h | h
          · rw [mem_tagNameDiffs h] at hattr; simp at hattr
          · rw [mem_textContentDiffs h] at hattr; simp at hattr
          · obtain ⟨attr, hmem, _, _, hdeq⟩ := mem_attributeDiffs.mp h
            exact ⟨attr, hmem, by rw [hdeq]; rfl⟩
          · rw [mem_childrenCountDiffs h] at hattr; simp at hattr
          · rw [mem_childStructureDiffs h] at hattr; simp at hattr

/-- Witness for the amended C7 at a concrete input: expected has
id equal to x, actual lacks id; a high-severity attribute diff for id is
emitted. -/
theorem C7_attribute_diffs_amended_witness :
    (isElementNode (.el "div" [("id", "x")] []) = true ∧
      isElementNode (.el "div" [] []) = true ∧
      "id" ∈ importantAttrs ∧
      getAttribute (.el "div" [("id", "x")] []) "id" ≠ getAttribute (.el "div" [] []) "id" ∧
      jsTruthy (getAttribute (.el "div" [("id", "x")] []) "id") = true) ∧
    (∃ d ∈ (structuralEqual (.el "div" [("id", "x")] []) (.el "div" [] [])).diffs,
      d.dtype = "attribute" ∧ d.dattr = some "id" ∧
      d.severity = (if "id" = "id" then Severity.high else Severity.medium)) :=
  ⟨⟨by decide, by decide, by decide, by decide, by decide⟩,
    C7_attribute_diffs_amended.1 (.el "div" [("id", "x")] []) (.el "div" [] []) "id"
      (by decide) (by decide) (by decide) (by decide) (Or.inl (by decide))⟩

/-- C10: for every attribute of the compared set whose two values differ
while both are falsy (in particular an empty-string value on one side
and an absent attribute on the other), the comparator emits no attribute
diff for that attribute: a diff requires a non-empty string on at least
one side. -/
theorem C10_falsy_values_no_diff (e a : Node) (attr : String)
    (hmem : attr ∈ importantAttrs)
    (hne : getAttribute e attr ≠ getAttribute a attr)
    (h1 : jsTruthy (getAttribute e attr) = false)
    (h2 : jsTruthy (getAttribute a attr) = false) :
    ∀ d ∈ (structuralEqual e a).diffs, ¬(d.dtype = "attribute" ∧ d.dattr = some attr) := by
  intro d hd hcontra
  cases e with
  | text s => rw [structuralEqual_text_left] at hd; simp at hd
  | el etag eattrs ecs =>
    cases a with
    | text s => rw [structuralEqual_text_right] at hd; simp at hd
    | el atag aattrs acs =>
      cases hbeq : nodeBeq (.el etag eattrs ecs) (.el atag aattrs acs) with
      | true =>
        rw [structuralEqual_el, if_pos hbeq] at hd
        simp at hd
      | false =>
        rcases structuralEqual_diffs_cases hbeq hd with h | h | h | h | h
        · rw [mem_tagNameDiffs h] at hcontra; simp at hcontra
        · rw [mem_textContentDiffs h] at hcontra; simp at hcontra
        · obtain ⟨attr2, _, _, htr, hdeq⟩ := mem_attributeDiffs.mp h
          have hattr2 : attr2 = attr := by
            have := hcontra.2
            rw [hdeq] at this
            exact Option.some.injEq .. ▸ this
          rw [hattr2] at htr
          rcases htr with htr | htr
          · rw [h1] at htr; exact Bool.noConfusion htr
          · rw [h2] at htr; exact Bool.noConfusion htr
        · rw [mem_childrenCountDiffs h] at hcontra; simp at hcontra
        · rw [mem_childStructureDiffs h] at hcontra; simp at hcontra

/-- Witness for C10 at the empty-string versus absent class attribute. -/
theorem C10_falsy_values_no_diff_witness :
    ("class" ∈ importantAttrs ∧
      getAttribute c7Expected "class" ≠ getAttribute c7Actual "class" ∧
      jsTruthy (getAttribute c7Expected "class") = false ∧
      jsTruthy (getAttribute c7Actual "class") = false) ∧
    (∀ d ∈ (structuralEqual c7Expected c7Actual).diffs,
      ¬(d.dtype = "attribute" ∧ d.dattr = some "class")) :=
  ⟨⟨by decide, by decide, by decide, by decide⟩,
    C10_falsy_values_no_diff c7Expected c7Actual "class" (by decide) (by decide)
      (by decide) (by decide)⟩

-- ------------ text similarity lemmas (for C3) ------------

theorem clamp01_eq_self {x : ℚ} (h1 : 0 ≤ x) (h2 : x ≤ 1) : clamp01 x = x := by
  simp only [clamp01, min_eq_right h2, max_eq_right h1]

theorem levenshteinAux_nil_left (ys : List Char) : levenshteinAux [] ys = ys.length := by
  cases ys <;> simp [levenshteinAux]

theorem levenshteinAux_nil_right (xs : List Char) : levenshteinAux xs [] = xs.length := by
  cases xs <;> simp [levenshteinAux]

theorem levenshteinAux_le (xs ys : List Char) :
    levenshteinAux xs ys ≤ max xs.length ys.length := by
  suffices h : ∀ (n : ℕ) (xs ys : List Char), xs.length + ys.length ≤ n →
      levenshteinAux xs ys ≤ max xs.length ys.length from h _ xs ys le_rfl
  intro n
  induction n with
  | zero =>
    intro xs ys h
    cases xs with
    | nil => rw [levenshteinAux_nil_left]; exact le_max_right _ _
    | cons x xs2 =>
      cases ys with
      | nil => rw [levenshteinAux_nil_right]; exact le_max_left _ _
      | cons y ys2 => simp at h
  | succ n ih =>
    intro xs ys h
    cases xs with
    | nil => rw [levenshteinAux_nil_left]; exact le_max_right _ _
    | cons x xs2 =>
      cases ys with
      | nil => rw [levenshteinAux_nil_right]; exact le_max_left _ _
      | cons y ys2 =>
        rw [levenshteinAux]
        have hlen : xs2.length + ys2.length ≤ n := by
          simp only [List.length_cons] at h; omega
        have hd := ih xs2 ys2 hlen
        split
        · refine le_trans hd ?_
          simp only [List.length_cons]
          exact max_le_max (Nat.le_succ _) (Nat.le_succ _)
        · simp only [List.length_cons, Nat.succ_max_succ]
          have h1 : min (levenshteinAux xs2 ys2)
              (min (levenshteinAux (x :: xs2) ys2) (levenshteinAux xs2 (y :: ys2))) ≤
              levenshteinAux xs2 ys2 := min_le_left _ _
          omega

theorem calculateTextSimilarity_self (s : String) : calculateTextSimilarity s s = 1 := by
  unfold calculateTextSimilarity
  rw [if_pos rfl]

theorem calculateTextSimilarity_digits {x y : String} (hxy : x ≠ y)
    (hx : 0 < (extractNumbers x).length) (hy : 0 < (extractNumbers y).length)
    (habs : abstractDigits x = abstractDigits y) :
    calculateTextSimilarity x y = 9/10 := by
  unfold calculateTextSimilarity
  rw [if_neg hxy, if_neg ?_, if_pos ⟨hx, hy, habs⟩]
  rintro (rfl | rfl)
  · simp [extractNumbers, extractNumbersAux] at hx
  · simp [extractNumbers, extractNumbersAux] at hy

theorem string_length_toList (s : String) : s.toList.length = s.length := rfl

theorem calculateTextSimilarity_formula {x y : String} (hxy : x ≠ y)
    (hdig : ¬(0 < (extractNumbers x).length ∧ 0 < (extractNumbers y).length ∧
      abstractDigits x = abstractDigits y)) :
    calculateTextSimilarity x y =
      1 - (levenshteinDistance (if y.length < x.length then x else y)
            (if y.length < x.length then y else x) : ℚ) /
          ((if y.length < x.length then x else y).length) := by
  unfold calculateTextSimilarity
  rw [if_neg hxy]
  by_cases hex : x = ""
  · subst hex
    rw [if_pos (Or.inl rfl)]
    have hy : y ≠ "" := fun hc => hxy hc.symm
    have hylen : y.length ≠ 0 := fun hc => hy (String.ext (List.length_eq_zero.mp hc))
    have hcond : ¬(y.length < String.length "") := by simp
    rw [if_neg hcond, if_neg hcond]
    unfold levenshteinDistance
    have : String.toList "" = [] := rfl
    rw [this, levenshteinAux_nil_right, string_length_toList]
    rw [div_self (by exact_mod_cast hylen)]
    norm_num
  · by_cases hey : y = ""
    · subst hey
      rw [if_pos (Or.inr rfl)]
      have hxlen : x.length ≠ 0 := fun hc => hex (String.ext (List.length_eq_zero.mp hc))
      have hcond : String.length "" < x.length := Nat.pos_of_ne_zero hxlen
      rw [if_pos hcond, if_pos hcond]
      unfold levenshteinDistance
      have : String.toList "" = [] := rfl
      rw [this, levenshteinAux_nil_right, string_length_toList]
      rw [div_self (by exact_mod_cast hxlen)]
      norm_num
    · rw [if_neg (by rintro (hc | hc) <;> [exact hex hc; exact hey hc])]
      rw [if_neg hdig]
      have hxlen : x.length ≠ 0 := fun hc => hex (String.ext (List.length_eq_zero.mp hc))
      have hylen : y.length ≠ 0 := fun hc => hey (String.ext (List.length_eq_zero.mp hc))
      have hlonger : (if y.length < x.length then x else y).length ≠ 0 := by
        split <;> assumption
      rw [if_neg hlonger]
      have hle : levenshteinDistance (if y.length < x.length then x else y)
          (if y.length < x.length then y else x) ≤
          (if y.length < x.length then x else y).length := by
        unfold levenshteinDistance
        refine le_trans (levenshteinAux_le _ _) ?_
        rw [string_length_toList, string_length_toList]
        split
        · rename_i hc
          exact max_le le_rfl (le_of_lt hc)
        · rename_i hc
          exact max_le le_rfl (not_lt.mp hc)
      set L := (if y.length < x.length then x else y).length with hL
      set D := levenshteinDistance (if y.length < x.length then x else y)
          (if y.length < x.length then y else x) with hD
      have hLpos : (0 : ℚ) < (L : ℚ) := by
        exact_mod_cast Nat.pos_of_ne_zero hlonger
      have heq : ((L : ℚ) - D) / L = 1 - (D : ℚ) / L := by
        field_simp
      rw [heq]
      refine clamp01_eq_self ?_ ?_
      · have : (D : ℚ) / L ≤ 1 := by
          rw [div_le_one hLpos]
          exact_mod_cast hle
        linarith
      · have : (0 : ℚ) ≤ (D : ℚ) / L := by positivity
        linarith

theorem mem_textContentDiffs_iff {d : DiffEntry} {x y : String}
    (hx : x ≠ "") (hy : y ≠ "") (hxy : x ≠ y) :
    d ∈ textContentDiffs x y ↔
      (calculateTextSimilarity x y < TEXT_SIM_THRESHOLD_STRICT ∧
        d = .mk "textContent"
          (if calculateTextSimilarity x y < TEXT_SIM_THRESHOLD_LENIENT then .high else .low)
          (.str x) (.str y) none none [] (some (calculateTextSimilarity x y))) := by
  unfold textContentDiffs
  rw [if_pos ⟨hx, hy, hxy⟩]
  constructor
  · intro h
    split at h
    · exact ⟨by assumption, List.mem_singleton.mp h⟩
    · simp at h
  · rintro ⟨hlt, rfl⟩
    rw [if_pos hlt]
    exact List.mem_singleton.mpr rfl

theorem counterSim :
    calculateTextSimilarity "counter: 5" "counter: 9" = 9/10 :=
  calculateTextSimilarity_digits (by decide) (by decide) (by decide) (by decide)

/-- C3: for compared elements with non-empty unequal normalized texts, a
textContent diff is emitted exactly when the similarity is below 0.8,
with severity high exactly below 0.5 and low otherwise (the diff also
records the similarity); equal strings give similarity 1; strings with
digit runs and equal digit-abstracted forms give 0.9, so the counter
texts give 0.9 and produce no diff; all other pairs give
1 − editDistance(longer, shorter) / length(longer). -/
theorem C3_text_similarity :
    (∀ (etag atag : String) (eattrs aattrs : List (String × String)) (ecs acs : List Node),
      normalizeText (textContent (.el etag eattrs ecs)) ≠ "" →
      normalizeText (textContent (.el atag aattrs acs)) ≠ "" →
      normalizeText (textContent (.el etag eattrs ecs)) ≠
        normalizeText (textContent (.el atag aattrs acs)) →
      ((∃ d ∈ (structuralEqual (.el etag eattrs ecs) (.el atag aattrs acs)).diffs,
          d.dtype = "textContent") ↔
        calculateTextSimilarity (normalizeText (textContent (.el etag eattrs ecs)))
          (normalizeText (textContent (.el atag aattrs acs))) < 8/10) ∧
      (∀ d ∈ (structuralEqual (.el etag eattrs ecs) (.el atag aattrs acs)).diffs,
        d.dtype = "textContent" →
        d.severity = (if calculateTextSimilarity (normalizeText (textContent (.el etag eattrs ecs)))
              (normalizeText (textContent (.el atag aattrs acs))) < 5/10
            then Severity.high else Severity.low) ∧
        d.similarity = some (calculateTextSimilarity
            (normalizeText (textContent (.el etag eattrs ecs)))
            (normalizeText (textContent (.el atag aattrs acs)))))) ∧
    (∀ s : String, calculateTextSimilarity s s = 1) ∧
    (∀ x y : String, x ≠ y → 0 < (extractNumbers x).length → 0 < (extractNumbers y).length →
      abstractDigits x = abstractDigits y → calculateTextSimilarity x y = 9/10) ∧
    calculateTextSimilarity "counter: 5" "counter: 9" = 9/10 ∧
    (∀ d ∈ (structuralEqual (.el "div" [] [.text "Counter: 5"])
        (.el "div" [] [.text "Counter: 9"])).diffs, d.dtype ≠ "textContent") ∧
    (∀ x y : String, x ≠ y →
      ¬(0 < (extractNumbers x).length ∧ 0 < (extractNumbers y).length ∧
        abstractDigits x = abstractDigits y) →
      calculateTextSimilarity x y =
        1 - (levenshteinDistance (if y.length < x.length then x else y)
              (if y.length < x.length then y else x) : ℚ) /
            ((if y.length < x.length then x else y).length)) := by
  refine ⟨?_, calculateTextSimilarity_self, @calculateTextSimilarity_digits, counterSim,
    ?_, @calculateTextSimilarity_formula⟩
  · intro etag atag eattrs aattrs ecs acs hE hA hNe
    cases hbeq : nodeBeq (.el etag eattrs ecs) (.el atag aattrs acs) with
    | true =>
      exact absurd (congrArg (fun n => normalizeText (textContent n)) (nodeBeq_eq _ _ hbeq)) hNe
    | false =>
      constructor
      · constructor
        · rintro ⟨d, hd, hdty⟩
          rcases structuralEqual_diffs_cases hbeq hd with h | h | h | h | h
          · rw [mem_tagNameDiffs h] at hdty; simp at hdty
          · exact ((mem_textContentDiffs_iff hE hA hNe).mp h).1
          · obtain ⟨attr, _, _, _, hdeq⟩ := mem_attributeDiffs.mp h
            rw [hdeq] at hdty; simp [DiffEntry.dtype] at hdty
          · rw [mem_childrenCountDiffs h] at hdty; simp at hdty
          · rw [mem_childStructureDiffs h] at hdty; simp at hdty
        · intro hsim
          rw [structuralEqual_el,
            if_neg (by rw [hbeq]; exact fun hc => Bool.noConfusion hc)]
          refine ⟨.mk "textContent"
            (if calculateTextSimilarity (normalizeText (textContent (.el etag eattrs ecs)))
                (normalizeText (textContent (.el atag aattrs acs))) < TEXT_SIM_THRESHOLD_LENIENT
              then .high else .low)
            (.str (normalizeText (textContent (.el etag eattrs ecs))))
            (.str (normalizeText (textContent (.el atag aattrs acs)))) none none []
            (some (calculateTextSimilarity (normalizeText (textContent (.el etag eattrs ecs)))
              (normalizeText (textContent (.el atag aattrs acs))))), ?_, rfl⟩
          simp only [List.mem_append]
          exact Or.inl (Or.inl (Or.inl (Or.inr
            ((mem_textContentDiffs_iff hE hA hNe).mpr ⟨hsim, rfl⟩))))
      · intro d hd hdty
        rcases structuralEqual_diffs_cases hbeq hd with h | h | h | h | h
        · rw [mem_tagNameDiffs h] at hdty; simp at hdty
        · have hch := ((mem_textContentDiffs_iff hE hA hNe).mp h).2
          rw [hch]
          exact ⟨rfl, rfl⟩
        · obtain ⟨attr, _, _, _, hdeq⟩ := mem_attributeDiffs.mp h
          rw [hdeq] at hdty; simp [DiffEntry.dtype] at hdty
        · rw [mem_childrenCountDiffs h] at hdty; simp at hdty
        · rw [mem_childStructureDiffs h] at hdty; simp at hdty
  · intro d hd
    have hbeq : nodeBeq (.el "div" [] [.text "Counter: 5"])
        (.el "div" [] [.text "Counter: 9"]) = false := by decide
    rcases structuralEqual_diffs_cases hbeq hd with h | h | h | h | h
    · rw [mem_tagNameDiffs h]; decide
    · have h5 : normalizeText (textContent (Node.el "div" [] [.text "Counter: 5"])) =
          "counter: 5" := by decide
      have h9 : normalizeText (textContent (Node.el "div" [] [.text "Counter: 9"])) =
          "counter: 9" := by decide
      rw [h5, h9] at h
      have hnil : textContentDiffs "counter: 5" "counter: 9" = [] := by
        unfold textContentDiffs
        rw [if_pos (by refine ⟨by decide, by decide, by decide⟩), counterSim,
          if_neg (by norm_num [TEXT_SIM_THRESHOLD_STRICT])]
      rw [hnil] at h
      exact absurd h (List.not_mem_nil d)
    · obtain ⟨attr, _, _, _, hdeq⟩ := mem_attributeDiffs.mp h
      rw [hdeq]; simp [DiffEntry.dtype]
    · rw [mem_childrenCountDiffs h]; decide
    · rw [mem_childStructureDiffs h]; decide

/-- Witness for C3: the similarity clauses applied at concrete strings
and the comparator clause applied at concrete elements with unequal
non-empty texts. -/
theorem C3_text_similarity_witness :
    (normalizeText (textContent (Node.el "div" [] [.text "abcd"])) ≠ "" ∧
      normalizeText (textContent (Node.el "p" [] [.text "xy"])) ≠ "" ∧
      normalizeText (textContent (Node.el "div" [] [.text "abcd"])) ≠
        normalizeText (textContent (Node.el "p" [] [.text "xy"])) ∧
      ("q5" ≠ "q7" ∧ 0 < (extractNumbers "q5").length ∧ 0 < (extractNumbers "q7").length ∧
        abstractDigits "q5" = abstractDigits "q7")) ∧
    (((∃ d ∈ (structuralEqual (.el "div" [] [.text "abcd"]) (.el "p" [] [.text "xy"])).diffs,
        d.dtype = "textContent") ↔
      calculateTextSimilarity (normalizeText (textContent (.el "div" [] [.text "abcd"])))
        (normalizeText (textContent (.el "p" [] [.text "xy"]))) < 8/10) ∧
    calculateTextSimilarity "q5" "q7" = 9/10) := by
  refine ⟨⟨by decide, by decide, by decide, by decide, by decide, by decide, by decide⟩, ?_, ?_⟩
  · exact (C3_text_similarity.1 "div" "p" [] [] [.text "abcd"] [.text "xy"]
      (by decide) (by decide) (by decide)).1
  · exact C3_text_similarity.2.2.1 "q5" "q7" (by decide) (by decide) (by decide) (by decide)

-- ------------ visual similarity scorer (lines 210-301, 407-484) ------------

/-- A computed style: property name to value, as returned by
window.getComputedStyle; getPropertyValue yields the empty string for an
unlisted property. -/
def Style := List (String × String)

def styleGet (st : Style) (prop : String) : String :=
  ((st.find? (fun p => p.1 == prop)).map (fun p => p.2)).getD ""

/-- Substring test, modelling String.prototype.includes. -/
def hasSubstrAux : List Char → List Char → Bool
| [], sub => sub.isEmpty
| c :: t, sub => sub.isPrefixOf (c :: t) || hasSubstrAux t sub

def containsSubstr (s sub : String) : Bool :=
  hasSubstrAux s.toList sub.toList

def jsTrimStr (s : String) : String := String.mk (jsTrim s.toList)

def strEndsWith (s suffix : String) : Bool :=
  suffix.toList.isSuffixOf s.toList

/-- Digit-list value (most significant first). -/
def digitsVal (l : List Char) : ℚ :=
  l.foldl (fun a c => a * 10 + ((c.toNat - 48 : ℕ) : ℚ)) 0

/-- The numeric tokens matched by the global pattern of normalizeColor:
maximal digit runs with an optional fraction part (a dot must be
followed by at least one digit to be part of the token).  A small state
machine over the characters: none = outside a token, int = inside the
integer digits, dotPending = just after a dot, frac = inside fraction
digits with the scale of the next digit. -/
inductive NumScan where
| none
| int (v : ℚ)
| dotPending (v : ℚ)
| frac (v : ℚ) (scale : ℚ)

def numTokensAux : List Char → NumScan → List ℚ
| [], st =>
  match st with
  | .none => []
  | .int v => [v]
  | .dotPending v => [v]
  | .frac v _ => [v]
| c :: rest, st =>
  if c.isDigit then
    let d : ℚ := ((c.toNat - 48 : ℕ) : ℚ)
    match st with
    | .none => numTokensAux rest (.int d)
    | .int v => numTokensAux rest (.int (v * 10 + d))
    | .dotPending v => numTokensAux rest (.frac (v + d / 10) (1/100))
    | .frac v scale => numTokensAux rest (.frac (v + d * scale) (scale / 10))
  else if c == '.' then
    match st with
    | .none => numTokensAux rest .none
    | .int v => numTokensAux rest (.dotPending v)
    | .dotPending v => v :: numTokensAux rest .none
    | .frac v _ => v :: numTokensAux rest .none
  else
    match st with
    | .none => numTokensAux rest .none
    | .int v => v :: numTokensAux rest .none
    | .dotPending v => v :: numTokensAux rest .none
    | .frac v _ => v :: numTokensAux rest .none

def numTokens (s : String) : List ℚ := numTokensAux s.toList .none

/-- toHex of domCompare.ts: clamp the rounded value to [0,255] and
render two lowercase hex digits. -/
def toHex (n : ℚ) : String :=
  let v : ℤ := max 0 (min 255 (jsRound n))
  let s := String.mk (Nat.toDigits 16 v.toNat)
  if s.length < 2 then "0" ++ s else s

/-- normalizeColor of domCompare.ts: lowercase and trim; an rgb-function
form with at least three numeric tokens becomes a canonical hex form. -/
def normalizeColor (color : String) : String :=
  let c := jsTrimStr (jsToLower color)
  if "rgb".toList.isPrefixOf c.toList then
    match numTokens c with
    | r :: g :: b :: _ => "#" ++ toHex r ++ toHex g ++ toHex b
    | _ => c
  else c

/-- JavaScript parseFloat (without exponent forms, which the compared
style values do not use): optional sign, digits with an optional
fraction; NaN is none. -/
def jsParseFloat (s : String) : Option ℚ :=
  let l := s.toList.dropWhile jsWhitespace
  let sl : ℚ × List Char :=
    match l with
    | '-' :: t => (-1, t)
    | '+' :: t => (1, t)
    | _ => (1, l)
  let ds := sl.2.takeWhile Char.isDigit
  let l2 := sl.2.dropWhile Char.isDigit
  match l2 with
  | '.' :: t =>
    let fs := t.takeWhile Char.isDigit
    if ds.isEmpty && fs.isEmpty then none
    else some (sl.1 * (digitsVal ds + digitsVal fs / 10 ^ fs.length))
  | _ => if ds.isEmpty then none else some (sl.1 * digitsVal ds)

/-- Decimal rendering of the number produced by the em/rem conversion of
normalizeSizeValue (model of JavaScript number-to-string on the short
decimal values involved; at most ten fraction digits are rendered). -/
def qToStrFrac : ℕ → ℚ → String
| 0, _ => ""
| n + 1, f =>
  if f = 0 then ""
  else
    let d := Rat.floor (f * 10)
    String.mk (Nat.toDigits 10 d.toNat) ++ qToStrFrac n (f * 10 - d)

def qToStr (q : ℚ) : String :=
  let sign := if q < 0 then "-" else ""
  let aq := |q|
  let ip := (Rat.floor aq).toNat
  let fr := aq - ip
  let fracs := qToStrFrac 10 fr
  sign ++ String.mk (Nat.toDigits 10 ip) ++ (if fracs = "" then "" else "." ++ fracs)

/-- normalizeSizeValue of domCompare.ts: trim and lowercase; em/rem
values are converted to an approximate pixel string at 16 px per em. -/
def normalizeSizeValue (value : String) : String :=
  let v := jsToLower (jsTrimStr value)
  if v = "" then v
  else if strEndsWith v "em" || strEndsWith v "rem" then
    match jsParseFloat v with
    | some q => qToStr (q * 16) ++ "px"
    | none => "NaNpx"
  else v

/-- isColorSimilar of domCompare.ts. -/
def isColorSimilar (c1 c2 : String) : Bool :=
  let n1 := normalizeColor c1
  let n2 := normalizeColor c2
  if n1 == "" || n2 == "" then false
  else if (containsSubstr n1 "transparent" || containsSubstr n1 "rgba(0, 0, 0, 0)") &&
      (containsSubstr n2 "transparent" || containsSubstr n2 "rgba(0, 0, 0, 0)") then true
  else n1 == n2

/-- isSizeSimilar of domCompare.ts: within 20 percent of the average
(the average replaced by 1 when it is 0); NaN on either side is false. -/
def isSizeSimilar (s1 s2 : String) : Bool :=
  match jsParseFloat s1, jsParseFloat s2 with
  | some v1, some v2 =>
    let diff := |v1 - v2|
    let avg := (v1 + v2) / 2
    let avg2 := if avg = 0 then 1 else avg
    decide (diff / avg2 < 1/5)
  | _, _ => false

/-- isStyleValueEqual of domCompare.ts. -/
def isStyleValueEqual (v1 v2 prop : String) : Bool :=
  if v1 == v2 then true
  else if containsSubstr (jsToLower prop) "color" then
    normalizeColor v1 == normalizeColor v2
  else if (jsToLower prop == "width" || jsToLower prop == "height" ||
      jsToLower prop == "fontsize" || jsToLower prop == "margin" ||
      jsToLower prop == "padding") then
    normalizeSizeValue v1 == normalizeSizeValue v2
  else false

/-- isStyleValueSimilar of domCompare.ts. -/
def isStyleValueSimilar (v1 v2 prop : String) : Bool :=
  if containsSubstr (jsToLower prop) "color" then isColorSimilar v1 v2
  else if (jsToLower prop == "fontsize" || jsToLower prop == "width" ||
      jsToLower prop == "height") then isSizeSimilar v1 v2
  else false

def tagOf : Node → String
| .el t _ _ => t
| .text _ => ""

def childrenOf : Node → List Node
| .el _ _ cs => cs
| .text _ => []

/-- querySelectorAll with the selector button, input, a: the matching
descendant elements in document (pre-order) order, the root excluded. -/
def interactiveList : List Node → List Node
| [] => []
| .text _ :: xs => interactiveList xs
| .el t a cs :: xs =>
  (if jsToLower t == "button" || jsToLower t == "input" || jsToLower t == "a"
    then [Node.el t a cs] else [])
  ++ interactiveList cs ++ interactiveList xs

def layoutProps : List String :=
  ["display", "position", "width", "height", "margin", "padding"]

def visualProps : List String :=
  ["color", "backgroundColor", "fontSize", "fontWeight", "textAlign", "borderRadius"]

/-- visualSimilarity of domCompare.ts.  The computed-style lookup that
window.getComputedStyle performs inside the try block is the getStyle
oracle: none models the call throwing (elements detached from a live
document), in which case the catch branch returns the neutral-high
constant 0.8.  The pure remainder of the try block accumulates a score
and a number of checks over a (score, totalChecks) pair. -/
def visualSimilarity (getStyle : Node → Option Style) (expected actual : Node) : ℚ :=
  if isElementNode expected = false ∨ isElementNode actual = false then 1
  else
    match getStyle expected, getStyle actual with
    | some expectedStyle, some actualStyle =>
      let s1 : ℚ × ℕ := layoutProps.foldl (fun acc prop =>
        let eVal := styleGet expectedStyle prop
        let aVal := styleGet actualStyle prop
        (acc.1 + (if isStyleValueEqual eVal aVal prop then 2
          else if isStyleValueSimilar eVal aVal prop then 1 else 0), acc.2 + 2)) (0, 0)
      let s2 : ℚ × ℕ := visualProps.foldl (fun acc prop =>
        let eVal := styleGet expectedStyle prop
        let aVal := styleGet actualStyle prop
        (acc.1 + (if isStyleValueEqual eVal aVal prop then 1
          else if isStyleValueSimilar eVal aVal prop then 1/2 else 0), acc.2 + 1)) s1
      let expectedText := normalizeText (textContent expected)
      let actualText := normalizeText (textContent actual)
      let s3 : ℚ × ℕ :=
        (s2.1 + (if expectedText = actualText then 1
          else clamp01 (calculateTextSimilarity expectedText actualText)), s2.2 + 1)
      let s4 : ℚ × ℕ := (s3.1 + (if tagOf expected = tagOf actual then 1 else 0), s3.2 + 1)
      let eChildren := (getElementChildren (childrenOf expected)).length
      let aChildren := (getElementChildren (childrenOf actual)).length
      let s5 : ℚ × ℕ :=
        (s4.1 + (if eChildren = aChildren then 1
          else if ((eChildren : ℤ) - (aChildren : ℤ)).natAbs ≤ STRUCTURE_TOLERANCE_CHILD_DIFF
            then 7/10 else 0), s4.2 + 1)
      let expectedInteractive := interactiveList (childrenOf expected)
      let actualInteractive := interactiveList (childrenOf actual)
      let s6 : ℚ × ℕ :=
        if 0 < expectedInteractive.length ∨ 0 < actualInteractive.length then
          if expectedInteractive.length = actualInteractive.length then
            (expectedInteractive.zip actualInteractive).foldl (fun acc p =>
              let eBtnText := normalizeText (textContent p.1)
              let aBtnText := normalizeText (textContent p.2)
              (acc.1 + (if eBtnText = aBtnText then 1
                else if 7/10 < calculateTextSimilarity eBtnText aBtnText then 8/10 else 0),
                acc.2 + 1)) (s5.1 + 1, s5.2 + 1)
          else (s5.1, s5.2 + 1)
        else s5
      if 0 < s6.2 then clamp01 (s6.1 / (s6.2 : ℚ)) else 0
    | _, _ => 8/10

/-- C8: for every pair of root elements, when computed-style inspection
throws during visual scoring (the style oracle fails on either root),
visualSimilarity returns exactly the constant 0.8 instead of propagating
the failure. -/
theorem C8_visual_fallback (getStyle : Node → Option Style) (e a : Node)
    (he : isElementNode e = true) (ha : isElementNode a = true)
    (h : getStyle e = none ∨ getStyle a = none) :
    visualSimilarity getStyle e a = 8/10 := by
  rcases h with h | h
  · cases hga : getStyle a <;> simp [visualSimilarity, he, ha, h, hga]
  · cases hge : getStyle e <;> simp [visualSimilarity, he, ha, h, hge]

/-- Witness for C8: a style oracle that always fails on two concrete
divs yields 0.8. -/
theorem C8_visual_fallback_witness :
    (isElementNode (.el "div" [] []) = true ∧
      (fun (_ : Node) => (none : Option Style)) (.el "div" [] []) = none) ∧
    visualSimilarity (fun _ => none) (.el "div" [] []) (.el "div" [] []) = 8/10 :=
  ⟨⟨rfl, rfl⟩,
    C8_visual_fallback (fun _ => none) (.el "div" [] []) (.el "div" [] []) rfl rfl
      (Or.inl rfl)⟩

end DomCompare

namespace CodeRunnerModel

/-
  Model of the run cycle of src/src/components/CodeRunner.tsx for the
  temporal claim about superseded runs.

  The relevant code:
  * runCode (lines 338-379): setAssessmentScore(0), renders the solution
    pane synchronously, then schedules the user render with
    setTimeout(..., 200) whose closure captured the current userFiles;
    when the user render succeeds it schedules compareOutputs with
    setTimeout(..., 100).
  * compareOutputs (lines 316-337): reads the two mounted preview
    subtrees through refs and stores
    calculateAssessmentScore(structuralEqual(...), visualSimilarity(...))
    with setAssessmentScore; when either pane is unmounted it stores 0.
  * the question-change effect (lines 64-97): on a new questionId it
    loads the new files, resets the score to 0 and unmounts both roots.
    It does NOT cancel pending timers, and no run or question token is
    ever consulted by the deferred stages.
  * resetCode (lines 381-419): unmounts both roots, restores the starter
    files, resets the score and schedules a solution re-render with
    setTimeout(..., 0).

  Abstraction: file sets and mounted trees are tagged with the question
  they belong to (a natural number); the stored score records the
  provenance pair (question of the user tree, question of the solution
  tree) instead of the numeric value, and none stands for the reset
  value 0.  Timers live in a pending list; the environment chooses which
  due timer fires (Event.fire i), which lets a trace follow the real
  deadlines.  staleApplied records that a compare stage stored a score
  whose provenance differs from the question current at store time.
-/

/-- A pending setTimeout callback of CodeRunner. -/
inductive Timer where
| userRender (filesQ : ℕ)
| compareT
| solutionRender (filesQ : ℕ)
deriving DecidableEq, Repr

/-- The observable component state of CodeRunner used by the claim. -/
structure RunnerState where
  question : ℕ
  userFiles : ℕ
  solutionFiles : ℕ
  userMounted : Option ℕ
  solutionMounted : Option ℕ
  score : Option (ℕ × ℕ)
  pending : List Timer
  staleApplied : Bool
deriving DecidableEq, Repr

/-- External events: the user clicks Run or Reset, the question changes,
or the browser fires the i-th pending timer. -/
inductive Event where
| run
| changeQuestion (q : ℕ)
| reset
| fire (i : ℕ)
deriving Repr

def step (s : RunnerState) (ev : Event) : RunnerState :=
  match ev with
  | .run =>
    { s with score := none,
             solutionMounted := some s.solutionFiles,
             pending := s.pending ++ [.userRender s.userFiles] }
  | .changeQuestion q =>
    { question := q, userFiles := q, solutionFiles := q,
      userMounted := none, solutionMounted := none, score := none,
      pending := s.pending, staleApplied := s.staleApplied }
  | .reset =>
    { s with userMounted := none, solutionMounted := none, score := none,
             userFiles := s.question,
             pending := s.pending ++ [.solutionRender s.solutionFiles] }
  | .fire i =>
    match s.pending.get? i with
    | none => s
    | some t =>
      let rest := s.pending.eraseIdx i
      match t with
      | .userRender f =>
        { s with userMounted := some f, pending := rest ++ [.compareT] }
      | .solutionRender f =>
        { s with solutionMounted := some f, pending := rest }
      | .compareT =>
        match s.userMounted, s.solutionMounted with
        | some uf, some sf =>
          { s with pending := rest, score := some (uf, sf),
                   staleApplied := s.staleApplied ||
                     !(uf == s.question && sf == s.question) }
        | _, _ => { s with pending := rest, score := none }

def runEvents (s : RunnerState) (evs : List Event) : RunnerState :=
  evs.foldl step s

def initState (q : ℕ) : RunnerState :=
  ⟨q, q, q, none, none, none, [], false⟩

/-- The interleaving that violates the claim.  Real deadlines: run A at
time 0 schedules its user render for 200; the question changes at 50;
run B at 150 schedules its user render for 350; A's user render fires at
200 (mounting question-1 user code) and schedules the compare for 300,
which fires before B's render — all stages of run A execute unguarded
after the question changed. -/
def staleTrace : List Event :=
  [.run, .changeQuestion 2, .run, .fire 0, .fire 1]

/-- C9 fails on the code: the comparison stage of a superseded run is
applied after the question has changed — the stored score was computed
from the question-1 user tree against the question-2 solution tree while
the current question is 2, because no deferred stage of runCode is
guarded by any run or question token and the question-change effect
cancels no timers. -/
theorem C9_stale_comparison_applied :
    (runEvents (initState 1) staleTrace).score = some (1, 2) ∧
    (runEvents (initState 1) staleTrace).question = 2 ∧
    (runEvents (initState 1) staleTrace).staleApplied = true :=
  ⟨rfl, rfl, rfl⟩

end CodeRunnerModel
